import Mathlib

/-!
# Verification of the buildpulse/toolkit transfer and cache-resolution engine

This file gives a shallow embedding, in Lean, of the pure decision logic of
the toolkit's retry executor, cache-key resolution, multipart upload
book-keeping, stall monitor, retention validation, and chunked HTTP upload,
and proves (or refutes) the testable properties stated for them.

Conventions of the embedding:
* JavaScript numbers that are used as non-negative integers (byte counts,
  part numbers, epoch milliseconds) are modelled as `Nat`; values that may
  be negative (parsed integers) as `Int`.
* A JavaScript function that may `throw` is modelled as returning
  `Except JSError α`.
* Network calls are modelled as oracle parameters (a function argument per
  backend capability), so a theorem quantifies over every possible backend
  behaviour.
-/

/-- A JavaScript error value as the retry classifier sees it: a message
string plus an optional `code` property. -/
structure JSError where
  message : String
  code : Option String
deriving Repr, DecidableEq, Inhabited

/-- Options bag of `retry` (`src/unnamed/part_003`): all three fields are
optional in the source. -/
structure RetryOptions where
  maxRetries : Option Nat
  delayMs : Option Nat
  retryableErrors : Option (List String)
deriving Repr, DecidableEq

/-- JavaScript `x || d` on an optional number: `undefined` and `0` are both
falsy, so they fall back to the default. -/
def jsOrDefault (x : Option Nat) (d : Nat) : Nat :=
  match x with
  | none => d
  | some n => if n = 0 then d else n

/-- Constant `DEFAULT_MAX_RETRIES` of `src/unnamed/part_003`. -/
def DEFAULT_MAX_RETRIES : Nat := 3

/-- Constant `DEFAULT_RETRY_DELAY_MS` of `src/unnamed/part_003`. -/
def DEFAULT_RETRY_DELAY_MS : Nat := 1000

/-- The retryability classifier of `retry` (`src/unnamed/part_003`):
an empty configured set classifies every error as retryable; otherwise an
error is retryable when some configured signature is a substring of the
error message or equals the error code. -/
def isRetryable (retryableErrors : List String) (e : JSError) : Bool :=
  retryableErrors.isEmpty ||
    retryableErrors.any fun msg =>
      (msg.data <:+: e.message.data) || e.code == some msg

/-- The attempt loop of `retry` (`src/unnamed/part_003`), in direct
correspondence with `for (let attempt = 1; attempt <= maxRetries; attempt++)`.
`fn k` is the outcome of the `k`-th call of the wrapped operation
(1-indexed); `remaining` is `maxRetries - attempt + 1`, so `remaining = 1`
means `attempt === maxRetries`.  Returns the final outcome together with
the list of delays slept between attempts.  The `remaining = 0` case is
dead code: `retry` always starts the loop with `remaining = maxRetries ≥ 1`. -/
def retryAux (fn : Nat → Except JSError α) (delayMs : Nat)
    (retryableErrors : List String) : Nat → Nat → Except JSError α × List Nat
  | _, 0 => (.error ⟨"", none⟩, [])
  | attempt, remaining + 1 =>
    match fn attempt with
    | .ok v => (.ok v, [])
    | .error e =>
      if !(isRetryable retryableErrors e) || remaining = 0 then
        (.error e, [])
      else
        let delay := delayMs * 2 ^ (attempt - 1)
        let rest := retryAux fn delayMs retryableErrors (attempt + 1) remaining
        (rest.1, delay :: rest.2)

/-- Function `retry` of `src/unnamed/part_003`: resolve the option defaults
(JavaScript `||`, so an explicit `0` also falls back) and run the attempt
loop from attempt 1. -/
def retry (fn : Nat → Except JSError α) (options : RetryOptions) :
    Except JSError α × List Nat :=
  let maxRetries := jsOrDefault options.maxRetries DEFAULT_MAX_RETRIES
  let delayMs := jsOrDefault options.delayMs DEFAULT_RETRY_DELAY_MS
  let retryableErrors := options.retryableErrors.getD []
  retryAux fn delayMs retryableErrors 1 maxRetries

section RetryLemmas

variable {α : Type}

/-- A first-attempt failure that the classifier rejects is rethrown at once. -/
theorem retryAux_nonretryable (fn : Nat → Except JSError α) (delayMs : Nat)
    (res : List String) (attempt remaining : Nat) (e : JSError)
    (hf : fn attempt = .error e) (hr : isRetryable res e = false) :
    retryAux fn delayMs res attempt (remaining + 1) = (.error e, []) := by
  simp [retryAux, hf, hr]

/-- If every attempt in the window fails with a retryable error, the loop
returns the error of the last attempt unchanged, and the delays slept are
exactly `delayMs * 2 ^ (k - 1)` for each non-final attempt `k`. -/
theorem retryAux_all_fail (fn : Nat → Except JSError α) (delayMs : Nat)
    (res : List String) (es : Nat → JSError) :
    ∀ remaining attempt, 0 < remaining →
    (∀ k, fn k = .error (es k)) →
    (∀ k, isRetryable res (es k) = true) →
    retryAux fn delayMs res attempt remaining =
      (.error (es (attempt + remaining - 1)),
       (List.range (remaining - 1)).map fun i => delayMs * 2 ^ (attempt + i - 1)) := by
  intro remaining
  induction remaining with
  | zero => intro _ h; omega
  | succ n ih =>
    intro attempt _ hf hr
    by_cases hn : n = 0
    · subst hn
      simp [retryAux, hf attempt, hr attempt]
    · have hrec := ih (attempt + 1) (by omega) hf hr
      simp only [retryAux, hf attempt, hr attempt, Bool.not_true, Bool.false_or,
        hn, if_false, decide_False, Bool.false_eq_true, hrec, Prod.mk.injEq]
      refine ⟨by rw [show attempt + 1 + n - 1 = attempt + (n + 1) - 1 from by omega], ?_⟩
      obtain ⟨m, hm⟩ := Nat.exists_eq_succ_of_ne_zero hn
      subst hm
      simp only [Nat.add_sub_cancel, List.range_succ_eq_map, List.map_cons,
        Nat.add_zero, List.map_map]
      congr 1
      apply List.map_congr_left
      intro i _
      simp only [Function.comp_apply]
      rw [show attempt + 1 + i - 1 = attempt + Nat.succ i - 1 from by omega]

end RetryLemmas

/-- Helper `jsOrDefault` never yields zero when the default is positive, so the
retry loop always makes at least one attempt. -/
theorem jsOrDefault_pos (x : Option Nat) (d : Nat) (hd : 0 < d) :
    0 < jsOrDefault x d := by
  cases x with
  | none => simpa [jsOrDefault]
  | some n =>
    by_cases hn : n = 0 <;> simp [jsOrDefault, hn] <;> omega

/-- C4: for every operation and retry policy, (1) an attempt that fails
with an error the classifier rejects is rethrown immediately, with no
further attempts and no waits; (2) if every attempt fails with a retryable
error, the error object of the last (`maxRetries`-th) attempt is propagated
unchanged, and the waits between attempts are exactly
`baseDelay * 2 ^ (attempt - 1)`; (3) an empty retryable set classifies
every error as retryable; (4) the defaults are 3 attempts and a 1000 ms
base delay. -/
theorem retry_contract :
    (∀ (α : Type) (fn : Nat → Except JSError α) (opts : RetryOptions) (e : JSError),
      fn 1 = .error e → isRetryable (opts.retryableErrors.getD []) e = false →
      retry fn opts = (.error e, [])) ∧
    (∀ (α : Type) (fn : Nat → Except JSError α) (opts : RetryOptions) (es : Nat → JSError),
      (∀ k, fn k = .error (es k)) →
      (∀ k, isRetryable (opts.retryableErrors.getD []) (es k) = true) →
      retry fn opts =
        (.error (es (jsOrDefault opts.maxRetries DEFAULT_MAX_RETRIES)),
         (List.range (jsOrDefault opts.maxRetries DEFAULT_MAX_RETRIES - 1)).map
           fun i => jsOrDefault opts.delayMs DEFAULT_RETRY_DELAY_MS * 2 ^ i)) ∧
    (∀ e, isRetryable [] e = true) ∧
    DEFAULT_MAX_RETRIES = 3 ∧ DEFAULT_RETRY_DELAY_MS = 1000 := by
  refine ⟨?_, ?_, ?_, rfl, rfl⟩
  · intro α fn opts e hf hr
    unfold retry
    obtain ⟨m, hm⟩ : ∃ m, jsOrDefault opts.maxRetries DEFAULT_MAX_RETRIES = m + 1 :=
      ⟨_, (Nat.succ_pred_eq_of_pos (jsOrDefault_pos _ _ (by simp [DEFAULT_MAX_RETRIES]))).symm⟩
    rw [hm]
    exact retryAux_nonretryable fn _ _ 1 m e hf hr
  · intro α fn opts es hf hr
    have hpos : 0 < jsOrDefault opts.maxRetries DEFAULT_MAX_RETRIES :=
      jsOrDefault_pos _ _ (by simp [DEFAULT_MAX_RETRIES])
    unfold retry
    rw [retryAux_all_fail fn _ _ es _ 1 hpos hf hr]
    refine Prod.ext ?_ ?_
    · simp only
      rw [show 1 + jsOrDefault opts.maxRetries DEFAULT_MAX_RETRIES - 1
            = jsOrDefault opts.maxRetries DEFAULT_MAX_RETRIES from by omega]
    · simp only
      apply List.map_congr_left
      intro i _
      rw [show 1 + i - 1 = i from by omega]
  · intro e
    rfl

/-- Concrete check of `retry_contract`: a non-retryable error aborts at
once; with `maxRetries = 4`, `delayMs = 7` and an always-retryable error,
the last error surfaces after waits 7, 14, 28. -/
theorem retry_contract_witness :
    retry (fun _ => (.error ⟨"boom", none⟩ : Except JSError Nat))
        ⟨none, none, some ["net"]⟩ = (.error ⟨"boom", none⟩, []) ∧
    retry (fun _ => (.error ⟨"reset", none⟩ : Except JSError Nat))
        ⟨some 4, some 7, none⟩ = (.error ⟨"reset", none⟩, [7, 14, 28]) := by
  constructor
  · exact retry_contract.1 Nat _ _ _ rfl (by decide)
  · exact (retry_contract.2.1 Nat (fun _ => .error ⟨"reset", none⟩)
      ⟨some 4, some 7, none⟩ (fun _ => ⟨"reset", none⟩)
      (fun _ => rfl) (fun _ => rfl)).trans (by rfl)

/-! ## Retention validation (`retention.ts` and `src/unnamed/part_006`) -/

/-- Leading decimal-digit run of a character list, as JavaScript
`parseInt` consumes it. -/
def digitsPrefixOf : List Char → List Char
  | [] => []
  | c :: cs => if c.isDigit then c :: digitsPrefixOf cs else []

/-- Value of a digit run. -/
def digitsToNat (ds : List Char) : Nat :=
  ds.foldl (fun acc c => acc * 10 + (c.toNat - '0'.toNat)) 0

/-- JavaScript `parseInt(s)` restricted to radix 10: skip leading
whitespace, read an optional sign and then the longest digit prefix;
`none` models `NaN` (no digits). -/
def parseIntJS (s : String) : Option Int :=
  let cs := s.data.dropWhile (·.isWhitespace)
  let signed : Int × List Char :=
    match cs with
    | '-' :: t => (-1, t)
    | '+' :: t => (1, t)
    | t => (1, t)
  let ds := digitsPrefixOf signed.2
  if ds.isEmpty then none else some (signed.1 * digitsToNat ds)

/-- The error message thrown by `getRetentionDays` (`retention.ts`). -/
def retentionErrorMessage : String :=
  "Retention days must be a number between 1 and 90"

/-- Function `getRetentionDays` of `retention.ts`: `env` is the value of
`INPUT_RETENTION-DAYS` (`none` when unset; the empty string is falsy in
JavaScript and also yields `undefined`).  A value that does not parse, or
parses outside 1..90, throws the validation error; the function performs
no I/O, so the rejection happens before any upload request. -/
def getRetentionDays (env : Option String) : Except String (Option Int) :=
  match env with
  | none => .ok none
  | some s =>
    if s = "" then .ok none
    else
      match parseIntJS s with
      | none => .error retentionErrorMessage
      | some n =>
        if n < 1 ∨ 90 < n then .error retentionErrorMessage else .ok (some n)

/-- Function `getExpiration` of `src/unnamed/part_006`, with dates modelled as a
day count: an absent or falsy (`0`) input and an out-of-range input yield
`undefined`; a valid input yields today plus that many days.
(`parseInt(retentionDays.toString())` is the identity on the integer
inputs modelled here.) -/
def getExpiration (retentionDays : Option Int) (today : Nat) : Option Nat :=
  match retentionDays with
  | none => none
  | some d =>
    if d = 0 then none
    else if d < 1 ∨ 90 < d then none
    else some (today + d.toNat)

/-- C9: the retention-days input `"91"` (and in general any value parsing
outside 1..90) is rejected with the validation error by the pure validator
`getRetentionDays`, before any I/O; `"30"` is accepted, and an accepted
value of 30 yields an expiry 30 days after the current day. -/
theorem retention_days_validated :
    getRetentionDays (some "91") = .error retentionErrorMessage ∧
    getRetentionDays (some "30") = .ok (some 30) ∧
    (∀ today, getExpiration (some 30) today = some (today + 30)) ∧
    (∀ s n, parseIntJS s = some n → (n < 1 ∨ 90 < n) →
      getRetentionDays (some s) = .error retentionErrorMessage) := by
  refine ⟨rfl, rfl, fun today => rfl, ?_⟩
  intro s n hp hr
  by_cases hs : s = ""
  · subst hs
    rw [show parseIntJS "" = none from rfl] at hp
    cases hp
  · simp [getRetentionDays, hs, hp, hr]

/-- Concrete check of `retention_days_validated` at `"91"`. -/
theorem retention_days_validated_witness :
    getRetentionDays (some "91") = .error retentionErrorMessage :=
  retention_days_validated.2.2.2 "91" 91 (by decide) (by decide)

/-! ## Cache-key resolution (`src/unnamed/part_014` and `cacheService.ts`) -/

/-- A stored S3 object as the listing and head calls report it:
`Key`, `LastModified` (epoch milliseconds) and `Size`. -/
structure S3Object where
  key : String
  lastModified : Nat
  size : Nat
deriving Repr, DecidableEq

/-- Record `S3CacheMetadata` of `src/unnamed/part_014`. -/
structure S3CacheMetadata where
  key : String
  version : String
  creationTime : Nat
  size : Nat
deriving Repr, DecidableEq

/-- Record `S3CacheEntry` of `src/unnamed/part_014`; the source field `exists`
is a Lean keyword and is rendered `found`. -/
structure S3CacheEntry where
  found : Bool
  metadata : Option S3CacheMetadata
deriving Repr, DecidableEq

/-- Function `getCacheEntry` of `src/unnamed/part_014`: a `HeadObjectCommand` on
the combined cache key, modelled as lookup in the list of stored objects;
a `NotFound` from the backend yields `{exists: false}`.  The version
fingerprint is computed by the (external) `getCacheVersion` and only
recorded in the returned metadata. -/
def getCacheEntry (store : List S3Object) (key version : String) : S3CacheEntry :=
  match store.find? (fun o => o.key == key) with
  | some o => ⟨true, some ⟨key, version, o.lastModified, o.size⟩⟩
  | none => ⟨false, none⟩

/-- Function `listCacheEntries` of `src/unnamed/part_014`: `ListObjectsV2` with the
restore key as `Prefix` (all stored keys starting with it), then each key
is split on `":"` and only keys with at least two segments are kept. -/
def listCacheEntries (store : List S3Object) (p : String) : List S3CacheMetadata :=
  (store.filter fun o => p.data.isPrefixOf o.key.data).filterMap fun o =>
    let parts := o.key.data.splitOn ':'
    if 2 ≤ parts.length then
      some ⟨⟨parts.headI⟩, ⟨parts.tail.headI⟩, o.lastModified, o.size⟩
    else none

/-- The `entries.sort((a, b) => time(b) - time(a))[0]` selection of
`lookupCache`: JavaScript's sort is stable, so the selected element is the
first entry carrying the maximal creation time. -/
def latestEntry : List S3CacheMetadata → Option S3CacheMetadata
  | [] => none
  | e :: es =>
    match latestEntry es with
    | none => some e
    | some m => if m.creationTime > e.creationTime then some m else some e

/-- The restore-key loop of `lookupCache` (`src/unnamed/part_014`): keys
are consulted in caller order; the first key whose prefix listing is
non-empty returns the most recent listed entry. -/
def lookupRestore (store : List S3Object) : List String → Option S3CacheEntry
  | [] => none
  | rk :: rest =>
    match latestEntry (listCacheEntries store rk) with
    | some latest => some ⟨true, some latest⟩
    | none => lookupRestore store rest

/-- Function `lookupCache` of `src/unnamed/part_014`: exact lookup of the combined
primary key first; on a miss, the restore-key loop. -/
def lookupCache (store : List S3Object) (key : String) (restoreKeys : List String)
    (version : String) : Option S3CacheEntry :=
  let exactMatch := getCacheEntry store key version
  if exactMatch.found then some exactMatch
  else lookupRestore store restoreKeys

/-- Result shape of `getCacheEntryDownloadUrl` (`cacheService.ts`). -/
structure DownloadUrlResult where
  ok : Bool
  matchedKey : Option String
  signedDownloadUrl : Option String
deriving Repr, DecidableEq

/-- The restore-key loop of `getCacheEntryDownloadUrl` (`cacheService.ts`);
`gen` is the `S3Utils.generateDownloadUrl` capability, which presigns
`{key}/{version}` and yields `null` on failure. -/
def tryRestoreKeys (gen : String → String → Option String) (version : String) :
    List String → DownloadUrlResult
  | [] => ⟨false, none, none⟩
  | rk :: rest =>
    match gen rk version with
    | some url => ⟨true, some rk, some url⟩
    | none => tryRestoreKeys gen version rest

/-- Function `getCacheEntryDownloadUrl` of `cacheService.ts`: try the primary key
combined with the version first, then each restore key in order. -/
def getCacheEntryDownloadUrl (gen : String → String → Option String)
    (key : String) (restoreKeys : List String) (version : String) : DownloadUrlResult :=
  match gen key version with
  | some url => ⟨true, some key, some url⟩
  | none => tryRestoreKeys gen version restoreKeys

/-- C1: an exact primary match always dominates.  In `cacheService.ts`, if
the store resolves `primaryKey` with `version`, the result is that match,
with the same value for every restore-key list; in the S3 cache client's
`lookupCache`, if an object stored under the combined primary key exists,
it is returned immediately, again independently of the restore keys. -/
theorem exact_match_dominates :
    (∀ (gen : String → String → Option String) (key : String)
       (restoreKeys : List String) (version url : String),
      gen key version = some url →
      getCacheEntryDownloadUrl gen key restoreKeys version = ⟨true, some key, some url⟩) ∧
    (∀ (store : List S3Object) (key : String) (restoreKeys : List String)
       (version : String) (o : S3Object),
      store.find? (fun o => o.key == key) = some o →
      lookupCache store key restoreKeys version =
        some ⟨true, some ⟨key, version, o.lastModified, o.size⟩⟩) := by
  constructor
  · intro gen key restoreKeys version url h
    simp [getCacheEntryDownloadUrl, h]
  · intro store key restoreKeys version o h
    simp [lookupCache, getCacheEntry, h]

/-- Concrete check of `exact_match_dominates`: the exact entry wins even
though a restore-key candidate is newer. -/
theorem exact_match_dominates_witness :
    lookupCache
        [⟨"deps-v1:/a", 100, 7⟩, ⟨"deps-v2:/a", 900, 8⟩]
        "deps-v1:/a" ["deps-"] "v123" =
      some ⟨true, some ⟨"deps-v1:/a", "v123", 100, 7⟩⟩ :=
  exact_match_dominates.2
    [⟨"deps-v1:/a", 100, 7⟩, ⟨"deps-v2:/a", 900, 8⟩]
    "deps-v1:/a" ["deps-"] "v123" ⟨"deps-v1:/a", 100, 7⟩ (by decide)

/-- Unfolding of `latestEntry` at a cons cell. -/
theorem latestEntry_cons (e : S3CacheMetadata) (es : List S3CacheMetadata) :
    latestEntry (e :: es) =
      match latestEntry es with
      | none => some e
      | some m => if m.creationTime > e.creationTime then some m else some e := rfl

/-- The selection is `none` exactly on the empty listing (`entries.length > 0`
in the source guards the same condition). -/
theorem latestEntry_eq_none_iff (l : List S3CacheMetadata) :
    latestEntry l = none ↔ l = [] := by
  cases l with
  | nil => simp [latestEntry]
  | cons e es =>
    rw [latestEntry_cons]
    cases latestEntry es with
    | none => simp
    | some m =>
      by_cases hc : m.creationTime > e.creationTime <;> simp [hc]

/-- The selected entry is one of the listed entries. -/
theorem latestEntry_mem :
    ∀ (l : List S3CacheMetadata) (m : S3CacheMetadata),
      latestEntry l = some m → m ∈ l := by
  intro l
  induction l with
  | nil => intro m h; cases h
  | cons e es ih =>
    intro m h
    rw [latestEntry_cons] at h
    cases hrec : latestEntry es with
    | none =>
      rw [hrec] at h
      dsimp only at h
      cases h
      exact List.mem_cons_self e es
    | some m' =>
      rw [hrec] at h
      dsimp only at h
      by_cases hc : m'.creationTime > e.creationTime
      · rw [if_pos hc] at h
        cases h
        exact List.mem_cons_of_mem e (ih _ hrec)
      · rw [if_neg hc] at h
        cases h
        exact List.mem_cons_self e es

/-- The selected entry carries a maximal creation time. -/
theorem latestEntry_max :
    ∀ (l : List S3CacheMetadata) (m : S3CacheMetadata),
      latestEntry l = some m →
      ∀ m' ∈ l, m'.creationTime ≤ m.creationTime := by
  intro l
  induction l with
  | nil => intro m h; cases h
  | cons e es ih =>
    intro m h m' hm'
    rw [latestEntry_cons] at h
    cases hrec : latestEntry es with
    | none =>
      rw [hrec] at h
      dsimp only at h
      cases h
      have hes : es = [] := (latestEntry_eq_none_iff es).mp hrec
      subst hes
      rcases List.mem_cons.mp hm' with he | hin
      · exact he ▸ Nat.le_refl _
      · cases hin
    | some mx =>
      rw [hrec] at h
      dsimp only at h
      by_cases hc : mx.creationTime > e.creationTime
      · rw [if_pos hc] at h
        cases h
        rcases List.mem_cons.mp hm' with he | hin
        · exact he ▸ Nat.le_of_lt hc
        · exact ih m hrec m' hin
      · rw [if_neg hc] at h
        cases h
        rcases List.mem_cons.mp hm' with he | hin
        · exact he ▸ Nat.le_refl _
        · exact Nat.le_trans (ih mx hrec m' hin) (Nat.le_of_not_lt hc)

/-- With well-formed cache keys (every stored key contains a `":"`, as
written by `uploadToS3`, which stores under `{key}:{path}`), the prefix
listing is empty exactly when no stored key starts with the restore key. -/
theorem listCacheEntries_eq_nil_iff (store : List S3Object) (p : String)
    (hwf : ∀ o ∈ store, 2 ≤ (o.key.data.splitOn ':').length) :
    listCacheEntries store p = [] ↔ ∀ o ∈ store, p.data.isPrefixOf o.key.data = false := by
  induction store with
  | nil => simp [listCacheEntries]
  | cons o os ih =>
    have hwf' : ∀ o' ∈ os, 2 ≤ (o'.key.data.splitOn ':').length :=
      fun o' h => hwf o' (List.mem_cons_of_mem _ h)
    by_cases hs : p.data.isPrefixOf o.key.data = true
    · constructor
      · intro h
        exfalso
        have h2 := hwf o (List.mem_cons_self o os)
        simp [listCacheEntries, List.filter_cons, hs, List.filterMap_cons, h2] at h
      · intro h
        have := h o (List.mem_cons_self o os)
        rw [hs] at this
        cases this
    · have hstep : listCacheEntries (o :: os) p = listCacheEntries os p := by
        simp [listCacheEntries, List.filter_cons, hs]
      rw [hstep, ih hwf']
      constructor
      · intro h o' ho'
        rcases List.mem_cons.mp ho' with he | hin
        · subst he
          rw [Bool.eq_false_iff]
          exact hs
        · exact h o' hin
      · intro h o' ho'
        exact h o' (List.mem_cons_of_mem _ ho')

/-- A restore key with an empty listing is skipped. -/
theorem lookupRestore_cons_empty (store : List S3Object) (rk : String)
    (rest : List String) (h : listCacheEntries store rk = []) :
    lookupRestore store (rk :: rest) = lookupRestore store rest := by
  simp [lookupRestore, (latestEntry_eq_none_iff _).mpr h]

/-- A restore key with a non-empty listing returns its most recent entry. -/
theorem lookupRestore_cons_found (store : List S3Object) (rk : String)
    (rest : List String) (m : S3CacheMetadata)
    (h : latestEntry (listCacheEntries store rk) = some m) :
    lookupRestore store (rk :: rest) = some ⟨true, some m⟩ := by
  simp [lookupRestore, h]

/-- On an exact miss, `lookupCache` is the restore-key loop. -/
theorem lookupCache_miss (store : List S3Object) (key version : String)
    (restoreKeys : List String)
    (hmiss : (getCacheEntry store key version).found = false) :
    lookupCache store key restoreKeys version = lookupRestore store restoreKeys := by
  simp [lookupCache, hmiss]

/-- C2: on an exact primary miss (and with well-formed stored cache keys,
which always contain a `":"`), `lookupCache` consults the restore keys in
caller order: an empty list yields `NotFound` (`undefined`); if no restore
key prefixes any stored entry the result is `NotFound`; and for the first
restore key that prefixes at least one stored entry, the result is an
entry of that key's listing with maximal creation time, and the keys after
it are never consulted (the result equals the one computed with the list
truncated right after that key). -/
theorem restore_keys_consulted_in_order
    (store : List S3Object) (key version : String)
    (hwf : ∀ o ∈ store, 2 ≤ (o.key.data.splitOn ':').length)
    (hmiss : (getCacheEntry store key version).found = false) :
    lookupCache store key [] version = none ∧
    (∀ rks : List String, (∀ rk ∈ rks, ∀ o ∈ store, rk.data.isPrefixOf o.key.data = false) →
      lookupCache store key rks version = none) ∧
    (∀ (pre : List String) (rk : String) (post : List String),
      (∀ rk' ∈ pre, ∀ o ∈ store, rk'.data.isPrefixOf o.key.data = false) →
      (∃ o ∈ store, rk.data.isPrefixOf o.key.data = true) →
      ∃ m, lookupCache store key (pre ++ rk :: post) version = some ⟨true, some m⟩ ∧
        m ∈ listCacheEntries store rk ∧
        (∀ m' ∈ listCacheEntries store rk, m'.creationTime ≤ m.creationTime) ∧
        lookupCache store key (pre ++ rk :: post) version =
          lookupCache store key (pre ++ [rk]) version) := by
  refine ⟨by simp [lookupCache_miss store key version [] hmiss, lookupRestore], ?_, ?_⟩
  · intro rks h
    rw [lookupCache_miss store key version rks hmiss]
    induction rks with
    | nil => rfl
    | cons rk rest ih =>
      have hempty : listCacheEntries store rk = [] :=
        (listCacheEntries_eq_nil_iff store rk hwf).mpr (h rk (List.mem_cons_self _ _))
      rw [lookupRestore_cons_empty store rk rest hempty]
      exact ih fun rk' hrk' => h rk' (List.mem_cons_of_mem _ hrk')
  · intro pre rk post hpre hhit
    have hne : listCacheEntries store rk ≠ [] := by
      intro h
      obtain ⟨o, ho, hs⟩ := hhit
      have := (listCacheEntries_eq_nil_iff store rk hwf).mp h o ho
      rw [hs] at this
      cases this
    obtain ⟨m, hm⟩ : ∃ m, latestEntry (listCacheEntries store rk) = some m := by
      cases hl : latestEntry (listCacheEntries store rk) with
      | none => exact absurd ((latestEntry_eq_none_iff _).mp hl) hne
      | some m => exact ⟨m, rfl⟩
    refine ⟨m, ?_, latestEntry_mem _ m hm, latestEntry_max _ m hm, ?_⟩
    · rw [lookupCache_miss store key version _ hmiss]
      induction pre with
      | nil => exact lookupRestore_cons_found store rk post m hm
      | cons p ps ih =>
        have hempty : listCacheEntries store p = [] :=
          (listCacheEntries_eq_nil_iff store p hwf).mpr (hpre p (List.mem_cons_self _ _))
        rw [List.cons_append, lookupRestore_cons_empty store p _ hempty]
        exact ih fun rk' hrk' => hpre rk' (List.mem_cons_of_mem _ hrk')
    · rw [lookupCache_miss store key version _ hmiss,
        lookupCache_miss store key version _ hmiss]
      induction pre with
      | nil =>
        simp only [List.nil_append]
        rw [lookupRestore_cons_found store rk post m hm,
          lookupRestore_cons_found store rk [] m hm]
      | cons p ps ih =>
        have hempty : listCacheEntries store p = [] :=
          (listCacheEntries_eq_nil_iff store p hwf).mpr (hpre p (List.mem_cons_self _ _))
        rw [List.cons_append, List.cons_append,
          lookupRestore_cons_empty store p _ hempty,
          lookupRestore_cons_empty store p _ hempty]
        exact ih fun rk' hrk' => hpre rk' (List.mem_cons_of_mem _ hrk')

/-- Concrete check of `restore_keys_consulted_in_order`: with a primary
miss, the first matching restore key `"deps-"` wins and yields the most
recent `deps-` entry; the empty restore-key list yields `NotFound`. -/
theorem restore_keys_consulted_in_order_witness :
    lookupCache [⟨"deps-v1:xyz", 100, 5⟩, ⟨"deps-v3:abc", 300, 6⟩]
        "deps-v9:abc" ["nope-", "deps-"] "v1" =
      some ⟨true, some ⟨"deps-v3", "abc", 300, 6⟩⟩ ∧
    lookupCache [⟨"deps-v1:xyz", 100, 5⟩, ⟨"deps-v3:abc", 300, 6⟩]
        "deps-v9:abc" [] "v1" = none := by
  have h := restore_keys_consulted_in_order
    [⟨"deps-v1:xyz", 100, 5⟩, ⟨"deps-v3:abc", 300, 6⟩]
    "deps-v9:abc" "v1" (by decide) (by decide)
  obtain ⟨m, hm, -, -, -⟩ := h.2.2 ["nope-"] "deps-" [] (by decide)
    ⟨⟨"deps-v1:xyz", 100, 5⟩, by decide, by decide⟩
  refine ⟨?_, h.1⟩
  rw [hm] at *
  have hv : lookupCache [⟨"deps-v1:xyz", 100, 5⟩, ⟨"deps-v3:abc", 300, 6⟩]
      "deps-v9:abc" ["nope-", "deps-"] "v1" =
      some ⟨true, some ⟨"deps-v3", "abc", 300, 6⟩⟩ := by decide
  exact hv

/-! ## Chunked HTTP cache upload (`uploadFile` in `cacheHttpClient.ts`) -/

/-- The byte ranges claimed by the shared-offset loop of `uploadFile`:
each claim takes `chunkSize = min(fileSize - offset, maxChunkSize)` bytes
starting at `offset` (the source reads bytes `start..end` inclusive with
`end = offset + chunkSize - 1`, i.e. `chunkSize` bytes) and advances the
shared offset by `maxChunkSize`.  A pair `(start, len)` stands for the
half-open byte interval `[start, start + len)`. -/
def claimRanges (fileSize maxChunkSize offset : Nat) : List (Nat × Nat) :=
  if offset < fileSize ∧ 0 < maxChunkSize then
    (offset, min (fileSize - offset) maxChunkSize) ::
      claimRanges fileSize maxChunkSize (offset + maxChunkSize)
  else []
termination_by fileSize - offset
decreasing_by omega

/-- Shared state of the `uploadFile` worker pool: the shared `offset`
variable and the ranges claimed so far, in claim order. -/
structure UploadFileState where
  offset : Nat
  claimed : List (Nat × Nat)
deriving Repr, DecidableEq

/-- The claim block of one worker iteration in `uploadFile`: from the
`while (offset < fileSize)` check to `offset += maxChunkSize` there is no
`await`, so under the single-threaded event loop every worker executes
this block atomically; the block does not depend on which worker runs it. -/
def stepClaim (fileSize maxChunkSize : Nat) (st : UploadFileState) : UploadFileState :=
  if st.offset < fileSize then
    { offset := st.offset + maxChunkSize,
      claimed := st.claimed ++ [(st.offset, min (fileSize - st.offset) maxChunkSize)] }
  else st

/-- Evaluating the worker pool for `n` claim steps (any interleaving of
any number of workers performs some number of atomic claim steps) claims
exactly the first `n` canonical ranges. -/
theorem stepClaim_iterate (fileSize maxChunkSize : Nat) (hc : 0 < maxChunkSize) :
    ∀ (n offset : Nat) (acc : List (Nat × Nat)),
      ((stepClaim fileSize maxChunkSize)^[n] ⟨offset, acc⟩).claimed =
        acc ++ (claimRanges fileSize maxChunkSize offset).take n := by
  intro n
  induction n with
  | zero => intro offset acc; simp
  | succ n ih =>
    intro offset acc
    rw [Function.iterate_succ_apply]
    by_cases h : offset < fileSize
    · rw [show stepClaim fileSize maxChunkSize ⟨offset, acc⟩ =
          ⟨offset + maxChunkSize,
           acc ++ [(offset, min (fileSize - offset) maxChunkSize)]⟩ from by
        simp [stepClaim, h]]
      rw [ih]
      have hunf : claimRanges fileSize maxChunkSize offset =
          (offset, min (fileSize - offset) maxChunkSize) ::
            claimRanges fileSize maxChunkSize (offset + maxChunkSize) := by
        rw [claimRanges, if_pos ⟨h, hc⟩]
      rw [hunf, List.take_succ_cons]
      simp
    · rw [show stepClaim fileSize maxChunkSize ⟨offset, acc⟩ = ⟨offset, acc⟩ from by
        simp [stepClaim, h]]
      rw [ih]
      have hnil : claimRanges fileSize maxChunkSize offset = [] := by
        rw [claimRanges, if_neg (by omega)]
      rw [hnil]
      simp

/-- Every claimed range starts at or after the offset it was generated from. -/
theorem claimRanges_start_le (fileSize maxChunkSize : Nat) :
    ∀ (k offset : Nat), fileSize - offset ≤ k →
      ∀ r ∈ claimRanges fileSize maxChunkSize offset, offset ≤ r.1 := by
  intro k
  induction k with
  | zero =>
    intro offset hk r hr
    rw [claimRanges, if_neg (by omega)] at hr
    cases hr
  | succ k ih =>
    intro offset hk r hr
    rw [claimRanges] at hr
    by_cases h : offset < fileSize ∧ 0 < maxChunkSize
    · rw [if_pos h] at hr
      rcases List.mem_cons.mp hr with he | hin
      · subst he; exact Nat.le_refl _
      · exact Nat.le_trans (Nat.le_add_right _ _) (ih (offset + maxChunkSize) (by omega) r hin)
    · rw [if_neg h] at hr
      cases hr

/-- Each claimed range is non-empty, at most `maxChunkSize` long, and lies
inside `[offset, fileSize)`. -/
theorem claimRanges_bounds (fileSize maxChunkSize : Nat) :
    ∀ (k offset : Nat), fileSize - offset ≤ k →
      ∀ r ∈ claimRanges fileSize maxChunkSize offset,
        0 < r.2 ∧ r.2 ≤ maxChunkSize ∧ r.1 + r.2 ≤ fileSize := by
  intro k
  induction k with
  | zero =>
    intro offset hk r hr
    rw [claimRanges, if_neg (by omega)] at hr
    cases hr
  | succ k ih =>
    intro offset hk r hr
    rw [claimRanges] at hr
    by_cases h : offset < fileSize ∧ 0 < maxChunkSize
    · rw [if_pos h] at hr
      rcases List.mem_cons.mp hr with he | hin
      · subst he
        refine ⟨?_, ?_, ?_⟩ <;> simp <;> omega
      · exact ih (offset + maxChunkSize) (by omega) r hin
    · rw [if_neg h] at hr
      cases hr

/-- The claimed ranges are pairwise disjoint and in ascending order: each
range ends at or before the next one starts. -/
theorem claimRanges_pairwise (fileSize maxChunkSize : Nat) :
    ∀ (k offset : Nat), fileSize - offset ≤ k →
      List.Pairwise (fun r r' : Nat × Nat => r.1 + r.2 ≤ r'.1)
        (claimRanges fileSize maxChunkSize offset) := by
  intro k
  induction k with
  | zero =>
    intro offset hk
    rw [claimRanges, if_neg (by omega)]
    exact List.Pairwise.nil
  | succ k ih =>
    intro offset hk
    rw [claimRanges]
    by_cases h : offset < fileSize ∧ 0 < maxChunkSize
    · rw [if_pos h]
      refine List.Pairwise.cons ?_ (ih (offset + maxChunkSize) (by omega))
      intro r' hr'
      have hs := claimRanges_start_le fileSize maxChunkSize
        (fileSize - (offset + maxChunkSize)) (offset + maxChunkSize) (Nat.le_refl _) r' hr'
      simp only
      omega
    · rw [if_neg h]
      exact List.Pairwise.nil

/-- Every byte position from `offset` up to `fileSize` is covered by some
claimed range. -/
theorem claimRanges_cover (fileSize maxChunkSize : Nat) (hc : 0 < maxChunkSize) :
    ∀ (k offset : Nat), fileSize - offset ≤ k →
      ∀ b, offset ≤ b → b < fileSize →
        ∃ r ∈ claimRanges fileSize maxChunkSize offset, r.1 ≤ b ∧ b < r.1 + r.2 := by
  intro k
  induction k with
  | zero => intro offset hk b hb1 hb2; omega
  | succ k ih =>
    intro offset hk b hb1 hb2
    have h : offset < fileSize ∧ 0 < maxChunkSize := ⟨by omega, hc⟩
    rw [claimRanges, if_pos h]
    by_cases hcov : b < offset + min (fileSize - offset) maxChunkSize
    · exact ⟨(offset, min (fileSize - offset) maxChunkSize),
        List.mem_cons_self _ _, hb1, hcov⟩
    · obtain ⟨r, hr, hr1, hr2⟩ :=
        ih (offset + maxChunkSize) (by omega) b (by omega) hb2
      exact ⟨r, List.mem_cons_of_mem _ hr, hr1, hr2⟩

/-- The claimed lengths sum to the remaining file size. -/
theorem claimRanges_sum (fileSize maxChunkSize : Nat) (hc : 0 < maxChunkSize) :
    ∀ (k offset : Nat), fileSize - offset ≤ k →
      ((claimRanges fileSize maxChunkSize offset).map Prod.snd).sum
        = fileSize - offset := by
  intro k
  induction k with
  | zero =>
    intro offset hk
    rw [claimRanges, if_neg (by omega)]
    simpa using by omega
  | succ k ih =>
    intro offset hk
    rw [claimRanges]
    by_cases h : offset < fileSize ∧ 0 < maxChunkSize
    · rw [if_pos h]
      rw [List.map_cons, List.sum_cons, ih (offset + maxChunkSize) (by omega)]
      simp only
      omega
    · rw [if_neg h]
      simpa using by omega

/-- C10: for a chunked HTTP cache upload of `fileSize` bytes with positive
`maxChunkSize`, the ranges claimed by the pool of parallel workers (in any
interleaving: after `n` atomic claim steps the pool has claimed exactly
the first `n` canonical ranges) are pairwise disjoint, each of positive
length at most `maxChunkSize`, they lie inside `[0, fileSize)` and cover
every byte of it, and their lengths sum to `fileSize` — every byte is
uploaded exactly once. -/
theorem upload_file_ranges_partition (fileSize maxChunkSize : Nat)
    (hc : 0 < maxChunkSize) :
    (∀ n : Nat, ((stepClaim fileSize maxChunkSize)^[n] ⟨0, []⟩).claimed =
      (claimRanges fileSize maxChunkSize 0).take n) ∧
    List.Pairwise (fun r r' : Nat × Nat => r.1 + r.2 ≤ r'.1)
      (claimRanges fileSize maxChunkSize 0) ∧
    (∀ r ∈ claimRanges fileSize maxChunkSize 0,
      0 < r.2 ∧ r.2 ≤ maxChunkSize ∧ r.1 + r.2 ≤ fileSize) ∧
    (∀ b, b < fileSize →
      ∃ r ∈ claimRanges fileSize maxChunkSize 0, r.1 ≤ b ∧ b < r.1 + r.2) ∧
    ((claimRanges fileSize maxChunkSize 0).map Prod.snd).sum = fileSize := by
  refine ⟨fun n => stepClaim_iterate fileSize maxChunkSize hc n 0 [],
    claimRanges_pairwise fileSize maxChunkSize fileSize 0 (by omega),
    claimRanges_bounds fileSize maxChunkSize fileSize 0 (by omega),
    fun b hb => claimRanges_cover fileSize maxChunkSize hc fileSize 0 (by omega)
      b (Nat.zero_le b) hb,
    by simpa using claimRanges_sum fileSize maxChunkSize hc fileSize 0 (by omega)⟩

/-- Concrete check of `upload_file_ranges_partition`: a 10-byte file with
4-byte chunks is claimed as `[0,4) [4,8) [8,10)`. -/
theorem upload_file_ranges_partition_witness :
    claimRanges 10 4 0 = [(0, 4), (4, 4), (8, 2)] ∧
    ((claimRanges 10 4 0).map Prod.snd).sum = 10 := by
  have e2 : claimRanges 10 4 8 = [(8, 2)] := by
    rw [claimRanges, if_pos (by norm_num), claimRanges, if_neg (by norm_num)]
    norm_num
  have e1 : claimRanges 10 4 4 = (4, 4) :: claimRanges 10 4 8 := by
    rw [claimRanges, if_pos (by norm_num)]
    norm_num
  have e0 : claimRanges 10 4 0 = (0, 4) :: claimRanges 10 4 4 := by
    rw [claimRanges, if_pos (by norm_num)]
    norm_num
  refine ⟨by rw [e0, e1, e2], ?_⟩
  have h := (upload_file_ranges_partition 10 4 (by norm_num)).2.2.2.2
  exact h

/-! ## Multipart upload part book-keeping
(`uploadCacheArchiveSDK` in `uploadUtils.ts`, `uploadZipToS3` in `s3-upload.ts`) -/

/-- Stable insertion sort by a `Nat` key, modelling JavaScript
`Array.prototype.sort` with a numeric ascending comparator (ES2019 `sort`
is stable). -/
def insertByKey (key : α → Nat) (x : α) : List α → List α
  | [] => [x]
  | y :: ys => if key x ≤ key y then x :: y :: ys else y :: insertByKey key x ys

/-- Stable sort by a `Nat` key (insertion sort). -/
def sortByKey (key : α → Nat) (l : List α) : List α :=
  l.foldr (insertByKey key) []

/-- Value `numParts = Math.ceil(fileSize / chunkSize)` of `uploadCacheArchiveSDK`. -/
def sdkNumParts (fileSize chunkSize : Nat) : Nat :=
  (fileSize + chunkSize - 1) / chunkSize

/-- The parts generated by the loop of `uploadCacheArchiveSDK`
(`uploadUtils.ts`): part `i` (0-based loop index) reads bytes
`start = i * chunkSize` to `end - 1` with `end = min(start + chunkSize, fileSize)`
and carries the per-iteration constant `partNumber = i + 1`; the pair is
`(partNumber, byte length)`. -/
def sdkParts (fileSize chunkSize : Nat) : List (Nat × Nat) :=
  (List.range (sdkNumParts fileSize chunkSize)).map fun i =>
    (i + 1, min (i * chunkSize + chunkSize) fileSize - i * chunkSize)

/-- The `UploadPartCommand`s issued by the read loop of `uploadZipToS3`
(`s3-upload.ts`): the k-th chunk read (1-based) is uploaded with
`PartNumber: partNumber` evaluated at command-construction time, which is
exactly `k`; the pair is `(PartNumber, byte length)`.  `uploadSize` is
accumulated as `uploadSize += chunk.length` in the same loop, so it is the
sum of these lengths. -/
def zipPartCommands (chunks : List Nat) : List (Nat × Nat) :=
  chunks.enum.map fun p => (p.1 + 1, p.2)

/-- An await point of `uploadZipToS3` at which the event loop may run the
pending `.then` callbacks of part uploads.  With `n` chunks:
`read j` is the `await new Promise<Buffer>` that reads chunk `j`
(`j = n + 1` is the read that observes stream end); `flush k` is the
`await Promise.all(uploadPromises)` executed right after pushing part `k`
when the pool is full (`uploadPromises.length >= 4`); `final` is the
trailing `await Promise.all(uploadPromises)` after the loop. -/
inductive ZipAwait where
  | read (j : Nat)
  | flush (k : Nat)
  | final
deriving Repr, DecidableEq

/-- Position of an await point in execution order. -/
def ZipAwait.pos (n : Nat) : ZipAwait → Nat
  | .read j => 2 * j
  | .flush k => 2 * k + 1
  | .final => 2 * n + 3

/-- The value the mutable loop variable `partNumber` holds while execution
is suspended at the given await point: the source pushes the part-`k`
promise, then (possibly) awaits the flush, and only then runs
`partNumber++`.  So during the read of chunk `j` the variable is `j`,
during the flush right after part `k` it is still `k`, and after the loop
(stream end observed, all increments done) it is `n + 1`. -/
def ZipAwait.partNumberVar (n : Nat) : ZipAwait → Nat
  | .read j => j
  | .flush k => k
  | .final => n + 1

/-- Whether the await point occurs at all in the `n`-chunk execution: every
chunk read occurs (plus the end-observing read `n + 1`); a flush occurs
after part `k` exactly when the pool refilled to 4, i.e. `4 ∣ k`; the
final await always occurs. -/
def ZipAwait.occursB (n : Nat) : ZipAwait → Bool
  | .read j => decide (1 ≤ j) && decide (j ≤ n + 1)
  | .flush k => decide (1 ≤ k) && decide (k ≤ n) && decide (k % 4 = 0)
  | .final => true

/-- A completion schedule assigns to each part `k` (1-based) the await
point at which its `.then` callback runs.  It is valid when that point
occurs in the execution and lies strictly after the part was pushed
(a promise callback never runs synchronously with its registration, and
the next suspension after pushing part `k` is at position `2k + 1`). -/
def validScheduleB (n : Nat) (sched : Nat → ZipAwait) : Bool :=
  (List.range' 1 n).all fun k =>
    ZipAwait.occursB n (sched k) && decide (2 * k + 1 ≤ ZipAwait.pos n (sched k))

/-- The `uploadedParts` array of `uploadZipToS3` under a completion
schedule: callbacks push `{PartNumber: partNumber, ETag}` in the order of
their await points (we keep part order within one await point), and the
`PartNumber` recorded is the value of the mutable variable at that moment
(`partNumberVar`), not the number the part was uploaded under. -/
def zipUploadedParts (n : Nat) (sched : Nat → ZipAwait) (etag : Nat → String) :
    List (Nat × String) :=
  (sortByKey (fun k => ZipAwait.pos n (sched k)) (List.range' 1 n)).map
    fun k => (ZipAwait.partNumberVar n (sched k), etag k)

/-- The parts list submitted to `CompleteMultipartUploadCommand` by
`uploadZipToS3`: `uploadedParts.sort((a, b) => a.PartNumber - b.PartNumber)`. -/
def zipSubmittedParts (n : Nat) (sched : Nat → ZipAwait) (etag : Nat → String) :
    List (Nat × String) :=
  sortByKey Prod.fst (zipUploadedParts n sched etag)

/-- C3, evaluated on a 10 MiB upload in two 5 MiB parts.  In
`uploadCacheArchiveSDK` the claim holds: parts are `(1, 5MiB), (2, 5MiB)`,
their lengths sum to the file size, and even completion in reverse order
submits the list sorted ascending by part number.  In `uploadZipToS3` the
upload commands also carry part numbers 1, 2 and the byte lengths sum to
the input size — but the completion callbacks capture the *mutable*
`partNumber` variable, so under the (valid) schedule in which both part
responses resolve at the trailing `Promise.all`, the list submitted to
`completeMultipartUpload` is `[(3, e1), (3, e2)]` instead of
`[(1, e1), (2, e2)]`: part number 1 is never submitted. -/
theorem uploadZipToS3_submits_stale_part_numbers :
    sdkParts 10485760 5242880 = [(1, 5242880), (2, 5242880)] ∧
    ((sdkParts 10485760 5242880).map Prod.snd).sum = 10485760 ∧
    sortByKey Prod.fst ((sdkParts 10485760 5242880).reverse) =
      sdkParts 10485760 5242880 ∧
    zipPartCommands [5242880, 5242880] = [(1, 5242880), (2, 5242880)] ∧
    ((zipPartCommands [5242880, 5242880]).map Prod.snd).sum = 10485760 ∧
    validScheduleB 2 (fun _ => ZipAwait.final) = true ∧
    zipSubmittedParts 2 (fun _ => ZipAwait.final) (fun k => toString k) =
      [(3, "1"), (3, "2")] ∧
    (zipSubmittedParts 2 (fun _ => ZipAwait.final) (fun k => toString k)).map
        Prod.fst = [3, 3] := by
  refine ⟨by decide, by decide, by decide, by decide, by decide, by decide, ?_, ?_⟩ <;>
    decide

/-! ## Multipart session abort on failure
(`uploadToS3` in `src/unnamed/part_014`, `uploadZipToS3` in `s3-upload.ts`) -/

/-- A backend command sent by an uploader, as it appears on the wire. -/
inductive S3Cmd where
  | createMultipart
  | uploadPart (k : Nat)
  | completeMultipart
  | abortMultipart
deriving Repr, DecidableEq

/-- The sequential part loop shared by both uploaders: chunk `k` (1-based)
is uploaded as part `k`; the loop stops at the first failing part.
Returns the upload commands issued and the first error, if any.
`pr k` is the backend's response to part `k`. -/
def uploadPartsLoop (pr : Nat → Except JSError String) :
    Nat → Nat → List S3Cmd × Option JSError
  | 0, _ => ([], none)
  | n + 1, k =>
    match pr k with
    | .error e => ([.uploadPart k], some e)
    | .ok _ =>
      let rest := uploadPartsLoop pr n (k + 1)
      (.uploadPart k :: rest.1, rest.2)

/-- The multipart branch of `uploadToS3` (`src/unnamed/part_014`): create
the session; the `try` block uploads the parts and completes; the `catch`
block sends `AbortMultipartUploadCommand` and rethrows, so any failure of
a part upload or of the completion is followed by an abort before the
error propagates.  (`cr` is the completion response; a failing
`createMultipartUpload` propagates before any session exists.) -/
def uploadToS3Multipart (createRes : Except JSError String) (numChunks : Nat)
    (pr : Nat → Except JSError String) (cr : Except JSError Unit) :
    List S3Cmd × Option JSError :=
  match createRes with
  | .error e => ([.createMultipart], some e)
  | .ok _ =>
    let inner := uploadPartsLoop pr numChunks 1
    match inner.2 with
    | some e => (.createMultipart :: inner.1 ++ [.abortMultipart], some e)
    | none =>
      match cr with
      | .error e =>
        (.createMultipart :: inner.1 ++ [.completeMultipart, .abortMultipart], some e)
      | .ok _ => (.createMultipart :: inner.1 ++ [.completeMultipart], none)

/-- The command trace of `uploadZipToS3` (`s3-upload.ts`): the file
imports no `AbortMultipartUploadCommand` and its failure paths throw an
`S3UploadError` (with codes such as `UPLOAD_PART_FAILED` or
`COMPLETE_MULTIPART_FAILED`) without aborting the session. -/
def uploadZipToS3Cmds (createRes : Except JSError String) (numChunks : Nat)
    (pr : Nat → Except JSError String) (cr : Except JSError Unit) :
    List S3Cmd × Option JSError :=
  match createRes with
  | .error e =>
    ([.createMultipart],
     some ⟨"Failed to initiate multipart upload: " ++ e.message,
           some "CREATE_MULTIPART_FAILED"⟩)
  | .ok _ =>
    let inner := uploadPartsLoop pr numChunks 1
    match inner.2 with
    | some e =>
      (.createMultipart :: inner.1,
       some ⟨"Failed to upload part: " ++ e.message, some "UPLOAD_PART_FAILED"⟩)
    | none =>
      match cr with
      | .error e =>
        (.createMultipart :: inner.1 ++ [.completeMultipart],
         some ⟨"Failed to complete multipart upload: " ++ e.message,
               some "COMPLETE_MULTIPART_FAILED"⟩)
      | .ok _ => (.createMultipart :: inner.1 ++ [.completeMultipart], none)

/-- The part loop only issues part-upload commands. -/
theorem uploadPartsLoop_only_parts (pr : Nat → Except JSError String) :
    ∀ (n k : Nat), ∀ c ∈ (uploadPartsLoop pr n k).1, ∃ j, c = S3Cmd.uploadPart j := by
  intro n
  induction n with
  | zero => intro k c hc; cases hc
  | succ n ih =>
    intro k c hc
    simp only [uploadPartsLoop] at hc
    cases hpr : pr k with
    | error e =>
      rw [hpr] at hc
      rcases List.mem_singleton.mp hc with rfl
      exact ⟨k, rfl⟩
    | ok v =>
      rw [hpr] at hc
      rcases List.mem_cons.mp hc with rfl | hin
      · exact ⟨k, rfl⟩
      · exact ih (k + 1) c hin

/-- C5 counterexample: a two-part `uploadZipToS3` whose second part upload
fails after the session was opened propagates a classified upload error,
yet no `AbortMultipartUploadCommand` appears in the trace: the partial
session is left dangling, contradicting the claim for this uploader. -/
theorem uploadZipToS3_leaves_session_dangling :
    (uploadZipToS3Cmds (.ok "uploadId") 2
        (fun k => if k = 2 then .error ⟨"connection reset", none⟩ else .ok "etag")
        (.ok ())).2 =
      some ⟨"Failed to upload part: connection reset", some "UPLOAD_PART_FAILED"⟩ ∧
    S3Cmd.abortMultipart ∉
      (uploadZipToS3Cmds (.ok "uploadId") 2
        (fun k => if k = 2 then .error ⟨"connection reset", none⟩ else .ok "etag")
        (.ok ())).1 := by
  decide

/-- Evaluation of `uploadToS3Multipart` when some part upload fails. -/
theorem uploadToS3Multipart_loop_fail (numChunks : Nat)
    (pr : Nat → Except JSError String) (cr : Except JSError Unit) (e : JSError)
    (h : (uploadPartsLoop pr numChunks 1).2 = some e) :
    uploadToS3Multipart (.ok "uploadId") numChunks pr cr =
      (.createMultipart :: (uploadPartsLoop pr numChunks 1).1 ++ [.abortMultipart],
       some e) := by
  simp [uploadToS3Multipart, h]

/-- Evaluation of `uploadToS3Multipart` when the parts succeed but the
completion call fails. -/
theorem uploadToS3Multipart_complete_fail (numChunks : Nat)
    (pr : Nat → Except JSError String) (e : JSError)
    (h : (uploadPartsLoop pr numChunks 1).2 = none) :
    uploadToS3Multipart (.ok "uploadId") numChunks pr (.error e) =
      (.createMultipart :: (uploadPartsLoop pr numChunks 1).1 ++
        [.completeMultipart, .abortMultipart], some e) := by
  simp [uploadToS3Multipart, h]

/-- Evaluation of `uploadToS3Multipart` on a fully successful run. -/
theorem uploadToS3Multipart_success (numChunks : Nat)
    (pr : Nat → Except JSError String)
    (h : (uploadPartsLoop pr numChunks 1).2 = none) :
    uploadToS3Multipart (.ok "uploadId") numChunks pr (.ok ()) =
      (.createMultipart :: (uploadPartsLoop pr numChunks 1).1 ++
        [.completeMultipart], none) := by
  simp [uploadToS3Multipart, h]

/-- The commands of `uploadZipToS3` when some part upload fails. -/
theorem uploadZipToS3Cmds_part_fail (u : String) (numChunks : Nat)
    (pr : Nat → Except JSError String) (cr : Except JSError Unit) (e : JSError)
    (h : (uploadPartsLoop pr numChunks 1).2 = some e) :
    (uploadZipToS3Cmds (.ok u) numChunks pr cr).1 =
      .createMultipart :: (uploadPartsLoop pr numChunks 1).1 := by
  simp [uploadZipToS3Cmds, h]

/-- The commands of `uploadZipToS3` when all parts succeed (whatever the
completion outcome). -/
theorem uploadZipToS3Cmds_complete (u : String) (numChunks : Nat)
    (pr : Nat → Except JSError String) (cr : Except JSError Unit)
    (h : (uploadPartsLoop pr numChunks 1).2 = none) :
    (uploadZipToS3Cmds (.ok u) numChunks pr cr).1 =
      .createMultipart :: (uploadPartsLoop pr numChunks 1).1 ++
        [.completeMultipart] := by
  cases cr <;> simp [uploadZipToS3Cmds, h]

/-- C5 amended: in the cache S3 client's `uploadToS3`, once the session is
opened, every failing run (part upload or completion failure) ends its
command trace with an explicit abort, and no successful run ever aborts;
the artifact uploader `uploadZipToS3`, by contrast, never sends an abort
on any input. -/
theorem multipart_abort_on_failure :
    (∀ (numChunks : Nat) (pr : Nat → Except JSError String)
       (cr : Except JSError Unit) (e : JSError),
      (uploadToS3Multipart (.ok "uploadId") numChunks pr cr).2 = some e →
      (uploadToS3Multipart (.ok "uploadId") numChunks pr cr).1.getLast? =
        some S3Cmd.abortMultipart) ∧
    (∀ (numChunks : Nat) (pr : Nat → Except JSError String) (cr : Except JSError Unit),
      (uploadToS3Multipart (.ok "uploadId") numChunks pr cr).2 = none →
      S3Cmd.abortMultipart ∉ (uploadToS3Multipart (.ok "uploadId") numChunks pr cr).1) ∧
    (∀ (createRes : Except JSError String) (numChunks : Nat)
       (pr : Nat → Except JSError String) (cr : Except JSError Unit),
      S3Cmd.abortMultipart ∉ (uploadZipToS3Cmds createRes numChunks pr cr).1) := by
  refine ⟨?_, ?_, ?_⟩
  · intro numChunks pr cr e herr
    cases hloop : (uploadPartsLoop pr numChunks 1).2 with
    | some e' =>
      rw [uploadToS3Multipart_loop_fail numChunks pr cr e' hloop]
      exact List.getLast?_concat _
    | none =>
      cases cr with
      | error e' =>
        rw [uploadToS3Multipart_complete_fail numChunks pr e' hloop]
        have hsplit : S3Cmd.createMultipart :: (uploadPartsLoop pr numChunks 1).1 ++
            [S3Cmd.completeMultipart, S3Cmd.abortMultipart] =
            (S3Cmd.createMultipart :: ((uploadPartsLoop pr numChunks 1).1 ++
              [S3Cmd.completeMultipart])) ++ [S3Cmd.abortMultipart] := by simp
        show (S3Cmd.createMultipart :: (uploadPartsLoop pr numChunks 1).1 ++
            [S3Cmd.completeMultipart, S3Cmd.abortMultipart]).getLast? =
          some S3Cmd.abortMultipart
        rw [hsplit]
        exact List.getLast?_concat _
      | ok u =>
        cases u
        rw [uploadToS3Multipart_success numChunks pr hloop] at herr
        exact Option.noConfusion herr
  · intro numChunks pr cr hok
    cases hloop : (uploadPartsLoop pr numChunks 1).2 with
    | some e' =>
      rw [uploadToS3Multipart_loop_fail numChunks pr cr e' hloop] at hok
      exact Option.noConfusion hok
    | none =>
      cases cr with
      | error e' =>
        rw [uploadToS3Multipart_complete_fail numChunks pr e' hloop] at hok
        exact Option.noConfusion hok
      | ok u =>
        cases u
        rw [uploadToS3Multipart_success numChunks pr hloop]
        intro hmem
        rcases List.mem_cons.mp hmem with h | h
        · cases h
        · rcases List.mem_append.mp h with h | h
          · obtain ⟨j, hj⟩ := uploadPartsLoop_only_parts pr numChunks 1 _ h
            cases hj
          · cases List.mem_singleton.mp h
  · intro createRes numChunks pr cr
    cases createRes with
    | error e =>
      intro hmem
      cases List.mem_singleton.mp hmem
    | ok u =>
      cases hloop : (uploadPartsLoop pr numChunks 1).2 with
      | some e =>
        rw [uploadZipToS3Cmds_part_fail u numChunks pr cr e hloop]
        intro hmem
        rcases List.mem_cons.mp hmem with h | h
        · cases h
        · obtain ⟨j, hj⟩ := uploadPartsLoop_only_parts pr numChunks 1 _ h
          cases hj
      | none =>
        rw [uploadZipToS3Cmds_complete u numChunks pr cr hloop]
        intro hmem
        rcases List.mem_cons.mp hmem with h | h
        · cases h
        · rcases List.mem_append.mp h with h | h
          · obtain ⟨j, hj⟩ := uploadPartsLoop_only_parts pr numChunks 1 _ h
            cases hj
          · cases List.mem_singleton.mp h

/-- Concrete check of `multipart_abort_on_failure`: the same failing
two-part upload, run through the cache client's `uploadToS3`, ends with an
abort. -/
theorem multipart_abort_on_failure_witness :
    (uploadToS3Multipart (.ok "uploadId") 2
        (fun k => if k = 2 then .error ⟨"connection reset", none⟩ else .ok "etag")
        (.ok ())).1.getLast? = some S3Cmd.abortMultipart :=
  multipart_abort_on_failure.1 2
    (fun k => if k = 2 then .error ⟨"connection reset", none⟩ else .ok "etag")
    (.ok ()) ⟨"connection reset", none⟩ (by decide)

/-! ## Facade error propagation
(`restoreCacheV2` / `saveCacheV2` in `src/unnamed/part_009`,
`getArtifact` variants in `src/unnamed/part_004`) -/

/-- An error as the facade layer inspects it: the constructor `name`
(JavaScript `error.name`, e.g. `"ValidationError"`, `"ArtifactNotFoundError"`)
and the message. -/
structure FacadeError where
  name : String
  message : String
deriving Repr, DecidableEq

/-- The per-path loop of `saveCacheV2` (`src/unnamed/part_009`): `success`
starts at 1; a failing `uploadToS3` rethrows a `ValidationError` but any
other error only logs a warning and sets `success = 0`; the loop then
continues with the next path and the function returns `success` normally. -/
def saveLoop (upload : String → Except FacadeError Unit) :
    List String → Nat → Except FacadeError Nat
  | [], success => .ok success
  | p :: ps, success =>
    match upload p with
    | .ok _ => saveLoop upload ps success
    | .error e =>
      if e.name = "ValidationError" then .error e
      else saveLoop upload ps 0

/-- Function `saveCacheV2` (`src/unnamed/part_009`): empty resolved path list throws
a plain `Error`; otherwise the per-path upload loop runs and the numeric
`success` flag is returned. -/
def saveCacheV2 (cachePaths : List String)
    (upload : String → Except FacadeError Unit) : Except FacadeError Nat :=
  if cachePaths.isEmpty then
    .error ⟨"Error",
      "Path Validation Error: Path(s) specified in the action for caching do(es) not exist"⟩
  else
    saveLoop upload cachePaths 1

/-- The lookup phase of `restoreCacheV2`: each path's `lookupCache` must
report an existing entry; a miss returns `undefined` (modelled `ok false`),
a thrown error propagates to the surrounding catch. -/
def restoreLookupPhase (lookup : String → Except FacadeError Bool) :
    List String → Except FacadeError Bool
  | [] => .ok true
  | p :: ps =>
    match lookup p with
    | .error e => .error e
    | .ok false => .ok false
    | .ok true => restoreLookupPhase lookup ps

/-- The download phase of `restoreCacheV2`. -/
def restoreDownloadPhase (download : String → Except FacadeError Unit) :
    List String → Except FacadeError Unit
  | [] => .ok ()
  | p :: ps =>
    match download p with
    | .error e => .error e
    | .ok _ => restoreDownloadPhase download ps

/-- Function `restoreCacheV2` (`src/unnamed/part_009`), with the `lookupOnly` branch
omitted: the try-body looks up every path (a miss returns `undefined`) and
then downloads; the catch rethrows only `ValidationError`s and turns every
other error into a warning plus an `undefined` return. -/
def restoreCacheV2 (cachePaths : List String)
    (lookup : String → Except FacadeError Bool)
    (download : String → Except FacadeError Unit)
    (primaryKey : String) : Except FacadeError (Option String) :=
  let body : Except FacadeError (Option String) :=
    match restoreLookupPhase lookup cachePaths with
    | .error e => .error e
    | .ok false => .ok none
    | .ok true =>
      match restoreDownloadPhase download cachePaths with
      | .error e => .error e
      | .ok _ => .ok (some primaryKey)
  match body with
  | .ok r => .ok r
  | .error e => if e.name = "ValidationError" then .error e else .ok none

/-- C7, evaluated at concrete failing inputs: a save whose single upload
fails with a non-validation error returns normally with `0` — the hard
failure is warned away, not propagated, although `saveCache`'s own doc
comment promises "throws an error if save fails"; a restore whose lookup
throws a non-validation error likewise returns `undefined` instead of
propagating; only `ValidationError`s are rethrown by either facade (and
neither failure is converted into the success outcomes `1` /
`some primaryKey`). -/
theorem facade_swallows_hard_failures :
    saveCacheV2 ["/tmp/cache"]
        (fun _ => .error ⟨"Error", "connection reset by peer"⟩) = .ok 0 ∧
    restoreCacheV2 ["/tmp/cache"]
        (fun _ => .error ⟨"Error", "connection reset by peer"⟩)
        (fun _ => .ok ()) "deps-v1" = .ok none ∧
    saveCacheV2 ["/tmp/cache"]
        (fun _ => .error ⟨"ValidationError", "Key Validation Error"⟩) =
      .error ⟨"ValidationError", "Key Validation Error"⟩ ∧
    restoreCacheV2 ["/tmp/cache"]
        (fun _ => .error ⟨"ValidationError", "Path Validation Error"⟩)
        (fun _ => .ok ()) "deps-v1" =
      .error ⟨"ValidationError", "Path Validation Error"⟩ := by
  refine ⟨rfl, rfl, rfl, rfl⟩

/-- The S3 artifact record as the facade reads it (`id` 0 plays the role
of the falsy `id`). -/
structure Artifact where
  name : String
  id : Nat
  size : Nat
deriving Repr, DecidableEq

/-- The retry-based `getArtifact` variant (`src/unnamed/part_004`,
first definition): `mgr` is the settled outcome of
`retry(() => artifactManager.getArtifact(name), ...)` (a NotFound is not
in the retryable list, so it surfaces unchanged; see `retry_contract`).
An invalid or missing payload becomes an `InvalidResponseError`, which the
catch converts to `ArtifactNotFoundError`; an `ArtifactNotFoundError` with
`failIfNotFound` unset returns the soft empty result
`{name, id: 0, size: 0}`; any other error is wrapped into an
`ArtifactNotFoundError`; otherwise the error is rethrown. -/
def getArtifactRetryVariant (name : String) (mgr : Except FacadeError Artifact)
    (failIfNotFound : Bool) : Except FacadeError Artifact :=
  match mgr with
  | .ok a =>
    if a.name = "" ∨ a.id = 0 then
      .error ⟨"ArtifactNotFoundError", "Artifact not found or invalid: " ++ name⟩
    else .ok a
  | .error e =>
    if e.name = "InvalidResponseError" then
      .error ⟨"ArtifactNotFoundError", "Artifact not found or invalid: " ++ name⟩
    else if e.name = "ArtifactNotFoundError" ∧ failIfNotFound = false then
      .ok ⟨name, 0, 0⟩
    else if e.name ≠ "ArtifactNotFoundError" then
      .error ⟨"ArtifactNotFoundError", "Failed to get artifact " ++ name ++ ": " ++ e.message⟩
    else .error e

/-- The direct `getArtifact` variant (`src/unnamed/part_004`, second
definition): on any error, `failIfNotFound = true` rethrows it; otherwise
a non-`ArtifactNotFoundError` is wrapped into an `ArtifactNotFoundError`
and thrown, and an `ArtifactNotFoundError` is rethrown as-is — this
variant never returns a soft result. -/
def getArtifactDirectVariant (name : String) (mgr : Except FacadeError Artifact)
    (failIfNotFound : Bool) : Except FacadeError Artifact :=
  match mgr with
  | .ok a => .ok a
  | .error e =>
    if failIfNotFound then .error e
    else if e.name ≠ "ArtifactNotFoundError" then
      .error ⟨"ArtifactNotFoundError",
        "Artifact not found for name: " ++ name⟩
    else .error e

/-- C8 counterexample: for a missing artifact (the manager resolves to an
`ArtifactNotFoundError`), the direct `getArtifact` variant with
`failIfNotFound = false` still throws — it does not return a soft
empty/NotFound result, contradicting the claim for this variant. -/
theorem getArtifact_direct_variant_throws_when_soft :
    getArtifactDirectVariant "missing"
        (.error ⟨"ArtifactNotFoundError", "Failed to get artifact missing: NotFound"⟩)
        false =
      .error ⟨"ArtifactNotFoundError", "Failed to get artifact missing: NotFound"⟩ := by
  rfl

/-- C8 amended: the retry-based `getArtifact` behaves as claimed — on a
missing artifact it returns the soft empty result when
`failIfNotFound = false` and throws the `ArtifactNotFoundError` when
`failIfNotFound = true`; the direct variant instead throws the
`ArtifactNotFoundError` for both values of the flag (the flag only
controls whether foreign errors are re-wrapped before throwing). -/
theorem getArtifact_notfound_behaviour :
    (∀ (name : String) (e : FacadeError), e.name = "ArtifactNotFoundError" →
      getArtifactRetryVariant name (.error e) false = .ok ⟨name, 0, 0⟩) ∧
    (∀ (name : String) (e : FacadeError), e.name = "ArtifactNotFoundError" →
      getArtifactRetryVariant name (.error e) true = .error e) ∧
    (∀ (name : String) (e : FacadeError) (failIfNotFound : Bool),
      e.name = "ArtifactNotFoundError" →
      getArtifactDirectVariant name (.error e) failIfNotFound = .error e) := by
  refine ⟨?_, ?_, ?_⟩
  · intro name e he
    simp [getArtifactRetryVariant, he]
  · intro name e he
    simp [getArtifactRetryVariant, he]
  · intro name e failIfNotFound he
    cases failIfNotFound <;> simp [getArtifactDirectVariant, he]

/-- Concrete check of `getArtifact_notfound_behaviour` on a missing
artifact. -/
theorem getArtifact_notfound_behaviour_witness :
    getArtifactRetryVariant "missing"
        (.error ⟨"ArtifactNotFoundError", "Artifact not found: missing"⟩) false =
      .ok ⟨"missing", 0, 0⟩ ∧
    getArtifactRetryVariant "missing"
        (.error ⟨"ArtifactNotFoundError", "Artifact not found: missing"⟩) true =
      .error ⟨"ArtifactNotFoundError", "Artifact not found: missing"⟩ :=
  ⟨getArtifact_notfound_behaviour.1 "missing"
      ⟨"ArtifactNotFoundError", "Artifact not found: missing"⟩ rfl,
   getArtifact_notfound_behaviour.2.1 "missing"
      ⟨"ArtifactNotFoundError", "Artifact not found: missing"⟩ rfl⟩

/-! ## Stall detection
(`uploadZipToS3Storage` in `src/unnamed/part_005` with the 300 s timeout of
`config.ts`; `uploadZipToS3` in `s3-upload.ts` with its 30 s timeout) -/

/-- The distinguished stall error message raised by both monitors. -/
def stallErrorMessage : String := "Upload progress stalled."

/-- Constant `getUploadChunkTimeout` of `config.ts` (5 minutes), the stall window of
`uploadZipToS3Storage`. -/
def getUploadChunkTimeout : Nat := 300000

/-- Constant `stallTimeout = 30000` of `uploadZipToS3` (`s3-upload.ts`). -/
def zipStallTimeout : Nat := 30000

/-- Value of `lastProgressTime` as wall-clock time `t` (ms): the upload starts at
time 0 (`lastProgressTime = Date.now()`), and every progress event in
`events` that has happened by `t` refreshes it. -/
def lastProgressAt (events : List Nat) (t : Nat) : Nat :=
  (events.filter (· ≤ t)).foldl max 0

/-- The check the 1000 ms `setInterval` ticker runs:
`Date.now() - lastProgressTime > stallTimeout`. -/
def stallCheck (stallTimeout lastProgress now : Nat) : Bool :=
  decide (stallTimeout < now - lastProgress)

/-- Race `Promise.race([upload.done(), timeoutPromise])` of
`uploadZipToS3Storage`: if the upload never settles (`none`), the race is
decided by the monitor's rejection, with the stall error; if it settles at
`d`, whichever is first wins. -/
def raceStall (uploadDoneAt : Option Nat) (stallFireAt : Nat) : Except JSError Unit :=
  match uploadDoneAt with
  | none => .error ⟨stallErrorMessage, none⟩
  | some d => if d ≤ stallFireAt then .ok () else .error ⟨stallErrorMessage, none⟩

/-- The catch of `uploadZipToS3Storage`: logs, aborts, and rethrows the
error object unchanged. -/
def storageUploadCatch (e : JSError) : JSError := e

/-- An error as the outer catch of `uploadZipToS3` (`s3-upload.ts`)
inspects it. -/
structure ZipUploadError where
  message : String
  code : Option String
  isS3UploadError : Bool
deriving Repr, DecidableEq

/-- The outer catch of `uploadZipToS3`: a stall error
(`error.message === 'Upload progress stalled.'`) is passed through
directly, an `S3UploadError` is rethrown as-is, and anything else is
wrapped as `UNEXPECTED_ERROR`. -/
def classifyZipUploadError (e : ZipUploadError) : ZipUploadError :=
  if e.message = stallErrorMessage then e
  else if e.isS3UploadError then e
  else ⟨"Unexpected error uploading to S3: " ++ e.message, some "UNEXPECTED_ERROR", true⟩

/-- Which await of `uploadZipToS3` the function is suspended in:
`readingChunk` is the `await new Promise<Buffer>` whose executor installs
the `checkStall` interval; `awaitingParts` is a flush or trailing
`await Promise.all(uploadPromises)`. -/
inductive ZipPhase where
  | readingChunk
  | awaitingParts
deriving Repr, DecidableEq

/-- Whether a silence of `sinceLastProgress` ms fails the transfer in the
given phase of `uploadZipToS3`.  While a chunk read is pending, its
`checkStall` interval rejects that pending promise, so the stall surfaces.
While `Promise.all` is awaited there is no live rejection path: `cleanup()`
removes only the stream listeners, so intervals from already-resolved
chunk reads are still scheduled, but when one fires its `reject` targets
its own — already settled — chunk promise, which is a no-op, and nothing
rejects the `Promise.all`. -/
def zipStallRejects (phase : ZipPhase) (sinceLastProgress : Nat) : Bool :=
  match phase with
  | .readingChunk => decide (zipStallTimeout < sinceLastProgress)
  | .awaitingParts => false

/-- A `foldl max` stays below any bound dominating the seed and the list. -/
theorem foldl_max_le (L : Nat) :
    ∀ (l : List Nat) (a : Nat), a ≤ L → (∀ x ∈ l, x ≤ L) →
      l.foldl max a ≤ L := by
  intro l
  induction l with
  | nil =>
    intro a ha _
    simpa using ha
  | cons x xs ih =>
    intro a ha hx
    simp only [List.foldl_cons]
    exact ih (max a x)
      (Nat.max_le.mpr ⟨ha, hx x (List.mem_cons_self _ _)⟩)
      (fun y hy => hx y (List.mem_cons_of_mem _ hy))

/-- C6 counterexample: in `uploadZipToS3`, a silence of 1 000 000 ms —
far beyond the 30 000 ms stall window — while the function awaits
`Promise.all` of the in-flight part uploads does not fail the transfer
(no live rejection path exists in that phase), even though the same
silence during a chunk read does.  The claim's "for every transfer …
fails shortly after the window elapses rather than hanging indefinitely"
is false for this uploader. -/
theorem uploadZipToS3_stall_while_awaiting_parts_hangs :
    zipStallRejects ZipPhase.awaitingParts 1000000 = false ∧
    zipStallTimeout < 1000000 ∧
    zipStallRejects ZipPhase.readingChunk 1000000 = true := by
  decide

/-- C6 amended: in `uploadZipToS3Storage` the stall monitor covers the
whole transfer: if no progress event occurs after time `L`, some 1000 ms
tick at most `window + 1000` ms after `L` satisfies the stall check, and
when the upload never settles the race resolves to the distinguished
stall error; that error is rethrown unchanged by the storage catch, and
`uploadZipToS3`'s outer catch also passes a stall error through without
re-wrapping it.  In `uploadZipToS3` itself, the stall check guards the
chunk-read awaits (it fires exactly when the silence exceeds its 30 s
window) but not the part-upload awaits. -/
theorem stall_monitor_behaviour :
    (∀ (events : List Nat) (L : Nat), (∀ e ∈ events, e ≤ L) →
      ∃ t, t % 1000 = 0 ∧ t ≤ L + getUploadChunkTimeout + 1000 ∧
        stallCheck getUploadChunkTimeout (lastProgressAt events t) t = true) ∧
    (∀ stallFireAt : Nat,
      raceStall none stallFireAt = .error ⟨stallErrorMessage, none⟩) ∧
    (∀ e : JSError, storageUploadCatch e = e) ∧
    (∀ e : ZipUploadError, e.message = stallErrorMessage →
      classifyZipUploadError e = e) ∧
    (∀ s : Nat, zipStallRejects ZipPhase.readingChunk s = true ↔ zipStallTimeout < s) := by
  refine ⟨?_, fun _ => rfl, fun _ => rfl, ?_, ?_⟩
  · intro events L hL
    refine ⟨1000 * ((L + getUploadChunkTimeout) / 1000 + 1), ?_, ?_, ?_⟩
    · exact Nat.mul_mod_right 1000 _
    · have h := Nat.div_mul_le_self (L + getUploadChunkTimeout) 1000
      have h2 : 1000 * ((L + getUploadChunkTimeout) / 1000)
          = (L + getUploadChunkTimeout) / 1000 * 1000 := Nat.mul_comm _ _
      omega
    · have hlp : lastProgressAt events
          (1000 * ((L + getUploadChunkTimeout) / 1000 + 1)) ≤ L :=
        foldl_max_le L _ 0 (Nat.zero_le L)
          (fun x hx => hL x (List.mem_filter.mp hx).1)
      have hdm := Nat.div_add_mod (L + getUploadChunkTimeout) 1000
      have hm : (L + getUploadChunkTimeout) % 1000 < 1000 :=
        Nat.mod_lt _ (by norm_num)
      simp only [stallCheck, decide_eq_true_eq]
      omega
  · intro e he
    simp [classifyZipUploadError, he]
  · intro s
    simp [zipStallRejects]

/-- Concrete check of `stall_monitor_behaviour`: with a single progress
event at 5000 ms and silence afterwards, a tick fires by
`5000 + 300000 + 1000` ms, and the stall error survives both catches
unchanged. -/
theorem stall_monitor_behaviour_witness :
    (∃ t, t % 1000 = 0 ∧ t ≤ 5000 + getUploadChunkTimeout + 1000 ∧
      stallCheck getUploadChunkTimeout (lastProgressAt [5000] t) t = true) ∧
    classifyZipUploadError ⟨stallErrorMessage, none, false⟩ =
      ⟨stallErrorMessage, none, false⟩ :=
  ⟨stall_monitor_behaviour.1 [5000] 5000 (by decide),
   stall_monitor_behaviour.2.2.2.1 ⟨stallErrorMessage, none, false⟩ rfl⟩
